import Mathlib

/-!
Verification of the Digital Citizenship Detector repository.

The development embeds the three modules the claims are about:
* the rule-based scorer of `Simpler_py_ver.py` (`analyze_message`),
* the hosted-inference fallback logic of `detectors.py`
  (`zero_shot_claim_check`, `classify_toxicity`),
* the canned-feedback lookup of `feedback.py` (`feedback_for_labels`).

Strings are modelled as Lean strings, matched as character lists; Python
ints are `Int`; the float risk score is an exact rational, with Python's
`round` modelled as round-half-to-even on rationals (no tie arises at the
values the scorer produces, so the rational rounding agrees with the float
one there).
-/

namespace DigCit

/-- Whitespace test used by the scorer's strip (Python `str.strip`). -/
def isWs (c : Char) : Bool := c.isWhitespace

/-- Lower-case a character list (Python `str.lower`). -/
def lowerCL (l : List Char) : List Char := l.map Char.toLower

/-- Drop leading whitespace (the left half of Python `str.strip`). -/
def lstripCL (l : List Char) : List Char := l.dropWhile isWs

/-- Drop trailing whitespace (the right half of Python `str.strip`). -/
def rstripCL (l : List Char) : List Char := (l.reverse.dropWhile isWs).reverse

/-- Drop whitespace at both ends (Python `str.strip`). -/
def stripCL (l : List Char) : List Char := rstripCL (lstripCL l)

/-- Whether `needle` is an initial segment of the second list. -/
def leadsCL : List Char → List Char → Bool
  | [], _ => true
  | _ :: _, [] => false
  | a :: as, b :: bs => a == b && leadsCL as bs

/-- Substring containment, Python `needle in hay`. -/
def containsSub (needle : List Char) : List Char → Bool
  | [] => leadsCL needle []
  | c :: rest => leadsCL needle (c :: rest) || containsSub needle rest

/-- `needle` occurs contiguously inside `hay`. -/
def OccursIn (needle hay : List Char) : Prop := ∃ a b, hay = a ++ needle ++ b

/-- A category rule of the scorer (`Simpler_py_ver.py`, `class Rule`). -/
structure Rule where
  name : String
  keywords : List String
  weight : Int
  explanation : String
deriving DecidableEq

/-- `RULES` of `Simpler_py_ver.py`. -/
def RULES : List Rule := [
  ⟨"insult", ["idiot", "stupid", "dumb", "loser"], 3, "Potential insult"⟩,
  ⟨"profanity", ["hell", "crap", "wtf"], 2, "Contains profanity"⟩,
  ⟨"harassment", ["shut up", "nobody likes you", "go away"], 4, "Harassing phrase"⟩,
  ⟨"threat", ["hurt you", "beat you", "find you", "kill"], 6, "Possible threat"⟩,
  ⟨"exclusion", ["you can't sit", "not invited", "leave us"], 2, "Exclusionary language"⟩]

/-- `SAFE_TONE` of `Simpler_py_ver.py`. -/
def SAFE_TONE : List String :=
  ["please", "thank you", "sorry", "let's work together", "can we", "may we"]

/-- The padded normalized text, `t = " " + text.lower().strip() + " "`. -/
def paddedOf (text : String) : List Char :=
  ' ' :: stripCL (lowerCL text.toList) ++ [' ']

/-- One character of the punctuation-stripped variant
(`t.replace(",", " ").replace("!", " ").replace(".", " ")`). -/
def replPunct (c : Char) : Char :=
  if c == ',' || c == '!' || c == '.' then ' ' else c

/-- The punctuation-stripped variant of the padded text. -/
def strippedVariant (t : List Char) : List Char := t.map replPunct

/-- The space-padded keyword check, `f" {kw} " in t`. -/
def condPadded (kw : String) (t : List Char) : Bool :=
  containsSub (' ' :: kw.toList ++ [' ']) t

/-- The stripped-variant keyword check, `kw in t.replace(...)`. -/
def condStripped (kw : String) (t : List Char) : Bool :=
  containsSub kw.toList (strippedVariant t)

/-- The hit condition of the scorer loop: either check suffices. -/
def kwHit (kw : String) (t : List Char) : Bool := condPadded kw t || condStripped kw t

/-- The recorded hits, in rule order then keyword order within a rule. -/
def hitsOf (t : List Char) : List (String × String) :=
  RULES.foldl
    (fun acc r =>
      r.keywords.foldl (fun a kw => if kwHit kw t then a ++ [(r.name, kw)] else a) acc)
    []

/-- The accumulated raw score: each hit keyword adds its rule's full weight. -/
def rawScore (t : List Char) : Int :=
  RULES.foldl
    (fun s r => r.keywords.foldl (fun s2 kw => if kwHit kw t then s2 + r.weight else s2) s)
    0

/-- The politeness discount loop: each present safe-tone marker lowers the
score by one, floored at zero (`score = max(0, score - 1)`). -/
def discounted (t : List Char) (score : Int) : Int :=
  SAFE_TONE.foldl (fun sc s => if containsSub s.toList t then max 0 (sc - 1) else sc) score

/-- The normalization denominator, the live sum of all rule weights. -/
def maxScore : Int := (RULES.map Rule.weight).sum

/-- Round a rational to the nearest integer, ties to even (Python `round`). -/
def roundHalfEven (q : ℚ) : Int :=
  if q - (⌊q⌋ : ℚ) < 1/2 then ⌊q⌋
  else if 1/2 < q - (⌊q⌋ : ℚ) then ⌊q⌋ + 1
  else if ⌊q⌋ % 2 = 0 then ⌊q⌋ else ⌊q⌋ + 1

/-- Round to two decimal places, ties to even (Python `round(x, 2)`). -/
def round2 (q : ℚ) : ℚ := (roundHalfEven (q * 100) : ℚ) / 100

/-- Python `min` of two rationals: the first argument unless the second is below it. -/
def pyMin (a b : ℚ) : ℚ := if a ≤ b then a else b

/-- Python `max` of two rationals: the first argument unless the second is above it. -/
def pyMax (a b : ℚ) : ℚ := if a < b then b else a

/-- The normalized risk, `round(min(10, (score / max_score) * 10), 2)`. -/
def riskOf (score : Int) : ℚ :=
  round2 (pyMin 10 ((score : ℚ) / (maxScore : ℚ) * 10))

/-- The label thresholds of the scorer. -/
def labelOf (risk : ℚ) : String :=
  if 7 ≤ risk then "High Risk" else if 4 ≤ risk then "Medium Risk" else "Low Risk"

/-- The explanation lookup used to format a hit,
`next((r.explanation for r in RULES if r.name == rname), rname)`. -/
def explanationFor (rname : String) : String :=
  match RULES.find? (fun r => r.name == rname) with
  | some r => r.explanation
  | none => rname

/-- The formatted reasons, one per recorded hit. -/
def reasonsOf (hits : List (String × String)) : List String :=
  hits.map (fun p => explanationFor p.1 ++ " (matched: “" ++ p.2 ++ "”)")

/-- The dictionary returned by the scorer. -/
structure AnalysisResult where
  text : String
  label : String
  risk_score_0_10 : ℚ
  matches' : List String
  notes : String
deriving DecidableEq

/-- `analyze_message` of `Simpler_py_ver.py`. -/
def analyze_message (text : String) : AnalysisResult :=
  let t := paddedOf text
  let score := discounted t (rawScore t)
  let risk := riskOf score
  ⟨text, labelOf risk, risk,
   (if reasonsOf (hitsOf t) = [] then ["No risky patterns found"] else reasonsOf (hitsOf t)),
   "This is a simple rule-based demo. It can miss context or sarcasm."⟩

/-- The score contribution of one keyword of a rule of weight `w`: its rule's
weight when the keyword is hit, zero otherwise. -/
def kwContribution (w : Int) (kw : String) (t : List Char) : Int :=
  if kwHit kw t then w else 0

/-! ## detectors.py: hosted-inference fallback logic -/

/-- The response-body shapes the detectors dispatch on (`detectors.py`): a dict
with `labels` and `scores` keys, some other dict, an empty list, a list whose
first element is a list of label/score dicts, a list whose first element is a
dict with `labels` and `scores`, a list of label/score dicts, or anything else. -/
inductive HfBody where
  | dictLS (labels : List String) (scores : List ℚ) (sequence : String)
  | dictOther
  | emptyList
  | listFirstList (row0 : List (String × ℚ))
  | listFirstDictLS (labels : List String) (scores : List ℚ)
  | listFirstDictPair (items : List (String × ℚ))
  | otherBody
deriving DecidableEq

/-- An HTTP exchange outcome for one model: status code and parsed body. -/
structure HfResponse where
  status : Nat
  body : HfBody
deriving DecidableEq

/-- The per-attempt errors of `detectors.py`: the `RuntimeError`s and
`FileNotFoundError` raised by `_hf_post`, the `requests.HTTPError` from
`raise_for_status`, the unexpected-shape `RuntimeError` of the zero-shot loop,
and the `KeyError` a label-less dict raises in the toxicity parse. -/
inductive HfErrKind where
  | unauthorized401
  | forbidden403
  | modelNotFound (model : String)
  | warmingUp503 (model : String)
  | httpStatusError (status : Nat)
  | unexpectedShape (model : String)
  | keyErrorTox (model : String)
deriving DecidableEq

/-- What a detector call raises: a per-attempt error that escaped the loop, or
the aggregate failure built from `last_err` when the model list is exhausted. -/
inductive HfError where
  | attempt (e : HfErrKind)
  | aggregateZsc (last : Option HfErrKind)
  | aggregateTox (last : Option HfErrKind)
deriving DecidableEq

/-- `_hf_post` of `detectors.py`: map the status code to the raised error
(401, 403, 404, 503, then `raise_for_status` for other 4xx/5xx), else the body. -/
def hf_post (backend : String → HfResponse) (model : String) : Except HfErrKind HfBody :=
  let r := backend model
  if r.status = 401 then .error .unauthorized401
  else if r.status = 403 then .error .forbidden403
  else if r.status = 404 then .error (.modelNotFound model)
  else if r.status = 503 then .error (.warmingUp503 model)
  else if 400 ≤ r.status then .error (.httpStatusError r.status)
  else .ok r.body

/-- Which errors the fallback loops catch: `except (FileNotFoundError,
RuntimeError)`. The 401/403/503 errors and the unexpected-shape error are
`RuntimeError`s, 404 is `FileNotFoundError`; `requests.HTTPError` and
`KeyError` are neither and propagate. -/
def caughtByFallback : HfErrKind → Bool
  | .unauthorized401 => true
  | .forbidden403 => true
  | .modelNotFound _ => true
  | .warmingUp503 _ => true
  | .unexpectedShape _ => true
  | .httpStatusError _ => false
  | .keyErrorTox _ => false

/-- `ZSC_MODELS` of `detectors.py`, the fixed zero-shot fallback order. -/
def ZSC_MODELS : List String :=
  ["facebook/bart-large-mnli", "joeddav/bart-large-mnli-yahoo-answers",
   "typeform/distilbert-base-uncased-mnli"]

/-- The value `zero_shot_claim_check` returns: the serving model and the
label/score lists of its response. -/
structure ZscResult where
  model : String
  labels : List String
  scores : List ℚ
deriving DecidableEq

/-- The zero-shot shape test: a dict with `labels` and `scores`, or a list
whose first element is such a dict; anything else is an unexpected shape. -/
def zscParse (body : HfBody) : Option (List String × List ℚ) :=
  match body with
  | .dictLS ls ss _ => some (ls, ss)
  | .listFirstDictLS ls ss => some (ls, ss)
  | _ => none

/-- The fallback loop of `zero_shot_claim_check`: try each model in order,
catch `FileNotFoundError`/`RuntimeError` and remember it as `last_err`,
treat an unexpected shape the same way, and raise the aggregate error built
from `last_err` when the list is exhausted. -/
def zscGo (backend : String → HfResponse) :
    List String → Option HfErrKind → Except HfError ZscResult
  | [], last => .error (.aggregateZsc last)
  | m :: rest, last =>
    match hf_post backend m with
    | .ok body =>
      match zscParse body with
      | some (ls, ss) => .ok ⟨m, ls, ss⟩
      | none => zscGo backend rest (some (.unexpectedShape m))
    | .error e =>
      if caughtByFallback e then zscGo backend rest (some e) else .error (.attempt e)

/-- `zero_shot_claim_check` of `detectors.py`, over an abstract HTTP backend. -/
def zero_shot_claim_check (backend : String → HfResponse) : Except HfError ZscResult :=
  zscGo backend ZSC_MODELS none

/-- `TOX_MODELS` of `detectors.py`, the fixed toxicity fallback order. -/
def TOX_MODELS : List String :=
  ["unitary/toxic-bert", "s-nlp/roberta_toxicity_classifier"]

/-- The value `classify_toxicity` returns. -/
structure ToxResult where
  model : String
  scores : List (String × ℚ)
  toxic_score : ℚ
deriving DecidableEq

/-- `max(labels.values()) if labels else 0.0`. -/
def maxValsOr0 (l : List (String × ℚ)) : ℚ :=
  match l with
  | [] => 0
  | p :: rest => rest.foldl (fun m q => pyMax m q.2) p.2

/-- The label/score extraction of `classify_toxicity`: a list whose first
element is a list uses that row, a list of label/score dicts is read directly,
a `labels`/`scores` dict is zipped, and every other shape leaves the mapping
empty; a list whose first element is a dict without a `label` key raises
`KeyError` (modelled as the error case). -/
def toxLabels (body : HfBody) : Except Unit (List (String × ℚ)) :=
  match body with
  | .listFirstList row0 => .ok row0
  | .listFirstDictPair items => .ok items
  | .listFirstDictLS _ _ => .error ()
  | .emptyList => .ok []
  | .dictLS ls ss _ => .ok (ls.zip ss)
  | .dictOther => .ok []
  | .otherBody => .ok []

/-- The fallback loop of `classify_toxicity`. -/
def toxGo (backend : String → HfResponse) :
    List String → Option HfErrKind → Except HfError ToxResult
  | [], last => .error (.aggregateTox last)
  | m :: rest, last =>
    match hf_post backend m with
    | .ok body =>
      match toxLabels body with
      | .ok labels => .ok ⟨m, labels, maxValsOr0 labels⟩
      | .error _ => .error (.attempt (.keyErrorTox m))
    | .error e =>
      if caughtByFallback e then toxGo backend rest (some e) else .error (.attempt e)

/-- `classify_toxicity` of `detectors.py`, over an abstract HTTP backend. -/
def classify_toxicity (backend : String → HfResponse) : Except HfError ToxResult :=
  toxGo backend TOX_MODELS none

/-- A backend whose first zero-shot model answers 401 and whose other models
answer a well-formed zero-shot body. -/
def backend401 : String → HfResponse := fun m =>
  if m = "facebook/bart-large-mnli" then ⟨401, .otherBody⟩
  else ⟨200, .dictLS ["risky"] [] "seq"⟩

/-- A backend on which every model answers 503. -/
def backendAll503 : String → HfResponse := fun _ => ⟨503, .otherBody⟩

/-! ## feedback.py and the display labels of app.py -/

/-- The canned message bank of `feedback_for_labels`. -/
def feedbackBank : List (String × String) := [
  ("Safe behavior", "Great choice—this protects your privacy and keeps you safe online."),
  ("Risky behavior", "Think twice—this choice could expose personal info or lead to unsafe interactions."),
  ("Respectful", "Nice! That supports a positive, kind online community."),
  ("Disrespectful", "Consider how this might make others feel—let's try a more considerate approach.")]

/-- `max(label_scores.items(), key=lambda kv: kv[1])[0]`: the first
highest-scoring key of the mapping, given as head and tail. -/
def topLabel (x : String × ℚ) (xs : List (String × ℚ)) : String :=
  (xs.foldl (fun best kv => if best.2 < kv.2 then kv else best) x).1

/-- `feedback_for_labels` of `feedback.py`; the mapping is the insertion-ordered
association list of the dict. -/
def feedback_for_labels (label_scores : List (String × ℚ)) : String :=
  match label_scores with
  | [] => "Good effort—let's keep improving our digital choices."
  | x :: xs =>
    (((feedbackBank.find? (fun p => p.1 == topLabel x xs)).map Prod.snd).getD
      "Good effort—let's keep improving!")

/-- `DISPLAY_LABELS` of `app.py`. -/
def DISPLAY_LABELS : List String := ["Safe", "Respectful", "Risky", "Disrespectful", "Scam"]

/-- The number of safe-tone markers present in a padded text, the closed form
of the discount loop's effect. -/
def markerCount (t : List Char) : Int :=
  (SAFE_TONE.countP (fun m => containsSub m.toList t) : Int)

/-! ## Substring theory -/

theorem leadsCL_iff (n h : List Char) : leadsCL n h = true ↔ ∃ b, h = n ++ b := by
  induction n generalizing h with
  | nil => simp [leadsCL]
  | cons a as ih =>
    cases h with
    | nil => simp [leadsCL]
    | cons c cs =>
      simp only [leadsCL, Bool.and_eq_true, beq_iff_eq, ih, List.cons_append,
        List.cons.injEq]
      constructor
      · rintro ⟨rfl, b, rfl⟩
        exact ⟨b, rfl, rfl⟩
      · rintro ⟨b, rfl, rfl⟩
        exact ⟨rfl, b, rfl⟩

theorem containsSub_iff (n h : List Char) : containsSub n h = true ↔ OccursIn n h := by
  induction h with
  | nil =>
    simp only [containsSub, leadsCL_iff, OccursIn]
    constructor
    · rintro ⟨b, hb⟩
      exact ⟨[], b, by simpa using hb⟩
    · rintro ⟨a, b, hab⟩
      rw [List.nil_eq_append_iff] at hab
      obtain ⟨h1, h2⟩ := hab
      rw [List.append_eq_nil] at h1
      exact ⟨b, by simp [h1.2, h2]⟩
  | cons c cs ih =>
    simp only [containsSub, Bool.or_eq_true, leadsCL_iff, ih, OccursIn]
    constructor
    · rintro (⟨b, hb⟩ | ⟨a, b, hab⟩)
      · exact ⟨[], b, by simpa using hb⟩
      · exact ⟨c :: a, b, by simp [hab]⟩
    · rintro ⟨a, b, hab⟩
      cases a with
      | nil => exact Or.inl ⟨b, by simpa using hab⟩
      | cons x xs =>
        simp only [List.cons_append, List.cons.injEq] at hab
        exact Or.inr ⟨xs, b, hab.2⟩

theorem occursIn_extend_right {n h : List Char} (e : List Char) (hc : OccursIn n h) :
    OccursIn n (h ++ e) := by
  obtain ⟨a, b, rfl⟩ := hc
  exact ⟨a, b ++ e, by simp⟩

theorem occursIn_extend_left {n h : List Char} (e : List Char) (hc : OccursIn n h) :
    OccursIn n (e ++ h) := by
  obtain ⟨a, b, rfl⟩ := hc
  exact ⟨e ++ a, b, by simp⟩

theorem occursIn_map (f : Char → Char) {n h : List Char} (hc : OccursIn n h) :
    OccursIn (n.map f) (h.map f) := by
  obtain ⟨a, b, rfl⟩ := hc
  exact ⟨a.map f, b.map f, by simp⟩

theorem occursIn_append_cases {n a b : List Char} (hc : OccursIn n (a ++ b)) :
    OccursIn n a ∨ OccursIn n b ∨
      ∃ n1 n2, n = n1 ++ n2 ∧ n1 ≠ [] ∧ n2 ≠ [] ∧
        (∃ p, a = p ++ n1) ∧ (∃ s, b = n2 ++ s) := by
  obtain ⟨x, y, hxy⟩ := hc
  rw [List.append_assoc] at hxy
  rcases List.append_eq_append_iff.mp hxy with ⟨u, hu1, hu2⟩ | ⟨u, hu1, hu2⟩
  · -- x = a ++ u and b = u ++ n ++ y: the occurrence lies in b
    exact Or.inr (Or.inl ⟨u, y, by rw [hu2, List.append_assoc]⟩)
  · -- a = x ++ u and n ++ y = u ++ b
    rcases List.append_eq_append_iff.mp hu2 with ⟨v, hv1, hv2⟩ | ⟨v, hv1, hv2⟩
    · -- u = n ++ v: the occurrence lies in a
      exact Or.inl ⟨x, v, by rw [hu1, hv1, List.append_assoc]⟩
    · -- n = u ++ v with b = v ++ y
      cases u with
      | nil =>
        simp only [List.nil_append] at hv1
        exact Or.inr (Or.inl ⟨[], y, by rw [hv2, ← hv1, List.nil_append]⟩)
      | cons uc ucs =>
        cases v with
        | nil =>
          refine Or.inl ⟨x, [], ?_⟩
          rw [List.append_nil] at hv1
          rw [hu1, hv1, List.append_nil]
        | cons vc vcs =>
          exact Or.inr (Or.inr ⟨uc :: ucs, vc :: vcs, hv1, by simp, by simp,
            ⟨x, hu1⟩, ⟨y, hv2⟩⟩)

theorem occursIn_chars {n h : List Char} (hc : OccursIn n h) : ∀ c ∈ n, c ∈ h := by
  obtain ⟨a, b, rfl⟩ := hc
  intro c hcn
  simp [hcn]

theorem occursIn_drop_ws_suffix {n h w : List Char}
    (hw : ∀ c ∈ w, isWs c = true)
    (hn : n.getLast?.all (fun c => !isWs c) = true)
    (hne : n ≠ [])
    (hc : OccursIn n (h ++ w)) : OccursIn n h := by
  obtain ⟨cl, hcl⟩ := Option.isSome_iff_exists.mp (List.getLast?_isSome.mpr hne)
  have hclw : isWs cl = false := by
    rw [hcl] at hn
    simpa using hn
  rcases occursIn_append_cases hc with h1 | h2 | ⟨n1, n2, rfl, hn1, hn2, _, ⟨s, rfl⟩⟩
  · exact h1
  · exact absurd (hw cl (occursIn_chars h2 cl (List.mem_of_getLast?_eq_some hcl)))
      (by simp [hclw])
  · -- the tail n2 of n is a prefix of the all-whitespace w, yet ends in non-ws
    have hcl2 : n2.getLast? = some cl := by
      rw [List.getLast?_append, Option.or_of_isSome (List.getLast?_isSome.mpr hn2)] at hcl
      exact hcl
    have : cl ∈ n2 ++ s := List.mem_append_left s (List.mem_of_getLast?_eq_some hcl2)
    exact absurd (hw cl this) (by simp [hclw])

/-! ## Strip lemmas -/

theorem rstrip_decomp (l : List Char) :
    ∃ w, (∀ c ∈ w, isWs c = true) ∧ l = rstripCL l ++ w := by
  refine ⟨(l.reverse.takeWhile isWs).reverse, ?_, ?_⟩
  · intro c hc
    rw [List.mem_reverse] at hc
    exact List.mem_takeWhile_imp hc
  · unfold rstripCL
    rw [← List.reverse_append, List.takeWhile_append_dropWhile, List.reverse_reverse]

theorem lstrip_eq_strip_append (l : List Char) :
    ∃ w, (∀ c ∈ w, isWs c = true) ∧ lstripCL l = stripCL l ++ w := by
  obtain ⟨w, hw, he⟩ := rstrip_decomp (lstripCL l)
  exact ⟨w, hw, by rw [stripCL]; exact he⟩

theorem rstrip_eq_self {l : List Char}
    (h : l.getLast?.all (fun c => !isWs c) = true) : rstripCL l = l := by
  unfold rstripCL
  cases hrev : l.reverse with
  | nil =>
    rw [List.reverse_eq_nil_iff] at hrev
    simp [hrev]
  | cons c cs =>
    have hc : l.getLast? = some c := by
      rw [List.getLast?_eq_head?_reverse, hrev, List.head?_cons]
    rw [hc] at h
    have : isWs c = false := by simpa using h
    rw [List.dropWhile_cons_of_neg (by simp [this]), ← hrev, List.reverse_reverse]

theorem lstrip_append_not_nil {l : List Char} (m : List Char)
    (h : lstripCL l ≠ []) : lstripCL (l ++ m) = lstripCL l ++ m := by
  unfold lstripCL at h ⊢
  rw [List.dropWhile_append]
  simp [List.isEmpty_iff, h]

theorem stripCL_append_keyword {L kwL : List Char}
    (h1 : lstripCL L ≠ [])
    (hlast : kwL.getLast?.all (fun c => !isWs c) = true)
    (hne : kwL ≠ []) :
    stripCL (L ++ ' ' :: kwL) = lstripCL L ++ ' ' :: kwL := by
  unfold stripCL
  rw [lstrip_append_not_nil (' ' :: kwL) h1]
  apply rstrip_eq_self
  have he : (lstripCL L ++ ' ' :: kwL).getLast? = kwL.getLast? := by
    rw [show (' ' :: kwL) = [' '] ++ kwL from rfl, ← List.append_assoc,
      List.getLast?_append, Option.or_of_isSome (List.getLast?_isSome.mpr hne)]
  rw [he]
  exact hlast

theorem toList_of_append (s t : String) : (s ++ t).toList = s.toList ++ t.toList := by
  simp [String.toList]

theorem lowerCL_append (a b : List Char) : lowerCL (a ++ b) = lowerCL a ++ lowerCL b := by
  simp [lowerCL]

theorem paddedOf_append_keyword (text kw : String)
    (h1 : lstripCL (lowerCL text.toList) ≠ [])
    (hlow : lowerCL kw.toList = kw.toList)
    (hlast : kw.toList.getLast?.all (fun c => !isWs c) = true)
    (hne : kw.toList ≠ []) :
    paddedOf (text ++ " " ++ kw)
      = ' ' :: (lstripCL (lowerCL text.toList) ++ ' ' :: kw.toList) ++ [' '] := by
  unfold paddedOf
  have ht : (text ++ " " ++ kw).toList = text.toList ++ ' ' :: kw.toList := by
    rw [toList_of_append, toList_of_append,
      show (" " : String).toList = [' '] from rfl, List.append_assoc]
    rfl
  have hlsp : lowerCL (' ' :: kw.toList) = ' ' :: kw.toList := by
    simp only [lowerCL] at hlow ⊢
    rw [List.map_cons, show Char.toLower ' ' = ' ' from by decide, hlow]
  rw [ht, show text.toList ++ ' ' :: kw.toList = text.toList ++ (' ' :: kw.toList) from rfl,
    lowerCL_append, hlsp, stripCL_append_keyword h1 hlast hne]

/-! ## Hit persistence under appending a keyword -/

theorem strippedVariant_paddedOf (text : String) :
    strippedVariant (paddedOf text)
      = ' ' :: (stripCL (lowerCL text.toList)).map replPunct ++ [' '] := by
  unfold strippedVariant paddedOf
  simp [show replPunct ' ' = ' ' from by decide]

theorem kwHit_gives_occurs {kw : String} {t : List Char}
    (hnp : kw.toList.map replPunct = kw.toList)
    (hh : kwHit kw t = true) : OccursIn kw.toList (strippedVariant t) := by
  unfold kwHit condPadded condStripped at hh
  simp only [Bool.or_eq_true] at hh
  rcases hh with hp | hs
  · obtain ⟨a, b, hab⟩ := (containsSub_iff _ _).mp hp
    have : OccursIn kw.toList t :=
      ⟨a ++ [' '], [' '] ++ b, by rw [hab]; simp⟩
    have hm := occursIn_map replPunct this
    rw [hnp] at hm
    exact hm
  · exact (containsSub_iff _ _).mp hs

theorem kwHit_persist {text kw kw2 : String}
    (h1 : lstripCL (lowerCL text.toList) ≠ [])
    (hlow : lowerCL kw.toList = kw.toList)
    (hlastk : kw.toList.getLast?.all (fun c => !isWs c) = true)
    (hnek : kw.toList ≠ [])
    (hnp2 : kw2.toList.map replPunct = kw2.toList)
    (hlast2 : kw2.toList.getLast?.all (fun c => !isWs c) = true)
    (hne2 : kw2.toList ≠ [])
    (hh : kwHit kw2 (paddedOf text) = true) :
    kwHit kw2 (paddedOf (text ++ " " ++ kw)) = true := by
  have hocc : OccursIn kw2.toList (strippedVariant (paddedOf text)) :=
    kwHit_gives_occurs hnp2 hh
  rw [strippedVariant_paddedOf] at hocc
  have hocc1 : OccursIn kw2.toList
      ((' ' :: (stripCL (lowerCL text.toList)).map replPunct) ++ [' ']) := by
    simpa using hocc
  have hocc2 : OccursIn kw2.toList (' ' :: (stripCL (lowerCL text.toList)).map replPunct) :=
    occursIn_drop_ws_suffix (by intro c hc; simp at hc; subst hc; decide)
      hlast2 hne2 hocc1
  unfold kwHit
  simp only [Bool.or_eq_true]
  right
  unfold condStripped
  rw [containsSub_iff, paddedOf_append_keyword text kw h1 hlow hlastk hnek]
  obtain ⟨w, hw, hlw⟩ := lstrip_eq_strip_append (lowerCL text.toList)
  have hshape : strippedVariant
        (' ' :: (lstripCL (lowerCL text.toList) ++ ' ' :: kw.toList) ++ [' '])
      = (' ' :: (stripCL (lowerCL text.toList)).map replPunct)
        ++ (w.map replPunct ++ ' ' :: kw.toList.map replPunct ++ [' ']) := by
    unfold strippedVariant
    have hlw2 : lstripCL (lowerCL text.data) = stripCL (lowerCL text.data) ++ w := hlw
    simp [hlw2, show replPunct ' ' = ' ' from by decide]
  rw [hshape]
  exact occursIn_extend_right _ hocc2

/-! ## Score fold lemmas -/

theorem foldKw_le {t1 t2 : List Char} (w : Int) (hw : 0 ≤ w) (kws : List String)
    (H : ∀ kw ∈ kws, kwHit kw t1 = true → kwHit kw t2 = true) :
    ∀ s1 s2 : Int, s1 ≤ s2 →
      kws.foldl (fun s kw => if kwHit kw t1 then s + w else s) s1
        ≤ kws.foldl (fun s kw => if kwHit kw t2 then s + w else s) s2 := by
  induction kws with
  | nil => intro s1 s2 h; simpa using h
  | cons k ks ih =>
    intro s1 s2 h
    simp only [List.foldl_cons]
    refine ih (fun kw hkw => H kw (by simp [hkw])) _ _ ?_
    by_cases hk1 : kwHit k t1 = true
    · rw [if_pos hk1, if_pos (H k (by simp) hk1)]
      linarith
    · rw [if_neg hk1]
      by_cases hk2 : kwHit k t2 = true
      · rw [if_pos hk2]; linarith
      · rw [if_neg hk2]; exact h

theorem foldRules_le {t1 t2 : List Char} (rules : List Rule)
    (hwpos : ∀ r ∈ rules, 0 ≤ r.weight)
    (H : ∀ r ∈ rules, ∀ kw ∈ r.keywords, kwHit kw t1 = true → kwHit kw t2 = true) :
    ∀ s1 s2 : Int, s1 ≤ s2 →
      rules.foldl
          (fun s r => r.keywords.foldl (fun s2' kw => if kwHit kw t1 then s2' + r.weight else s2') s) s1
        ≤ rules.foldl
          (fun s r => r.keywords.foldl (fun s2' kw => if kwHit kw t2 then s2' + r.weight else s2') s) s2 := by
  induction rules with
  | nil => intro s1 s2 h; simpa using h
  | cons r rs ih =>
    intro s1 s2 h
    simp only [List.foldl_cons]
    refine ih (fun r' hr' => hwpos r' (by simp [hr']))
      (fun r' hr' => H r' (by simp [hr'])) _ _ ?_
    exact foldKw_le r.weight (hwpos r (by simp)) r.keywords
      (H r (by simp)) s1 s2 h

theorem rules_weights_nonneg : ∀ r ∈ RULES, 0 ≤ r.weight := by decide

theorem rawScore_le_of_hits {t1 t2 : List Char}
    (H : ∀ r ∈ RULES, ∀ kw ∈ r.keywords, kwHit kw t1 = true → kwHit kw t2 = true) :
    rawScore t1 ≤ rawScore t2 := by
  unfold rawScore
  exact foldRules_le RULES rules_weights_nonneg H 0 0 le_rfl

theorem foldKw_init_le (w : Int) (hw : 0 ≤ w) (t : List Char) (kws : List String) :
    ∀ s : Int, s ≤ kws.foldl (fun s' kw => if kwHit kw t then s' + w else s') s := by
  induction kws with
  | nil => intro s; simp
  | cons k ks ih =>
    intro s
    simp only [List.foldl_cons]
    refine le_trans ?_ (ih _)
    by_cases hk : kwHit k t = true
    · rw [if_pos hk]; linarith
    · rw [if_neg hk]

theorem rawScore_nonneg (t : List Char) : 0 ≤ rawScore t := by
  unfold rawScore
  have H : ∀ rules : List Rule, (∀ r ∈ rules, 0 ≤ r.weight) → ∀ s : Int,
      s ≤ rules.foldl
        (fun s' r => r.keywords.foldl (fun s2' kw => if kwHit kw t then s2' + r.weight else s2') s') s := by
    intro rules
    induction rules with
    | nil => intro _ s; simp
    | cons r rs ih =>
      intro hw s
      simp only [List.foldl_cons]
      refine le_trans (foldKw_init_le r.weight (hw r (by simp)) t r.keywords s)
        (ih (fun r' hr' => hw r' (by simp [hr'])) _)
  exact H RULES rules_weights_nonneg 0

/-! ## Discount closed form -/

theorem discount_fold_eq (t : List Char) (ms : List String) :
    ∀ s : Int, 0 ≤ s →
      ms.foldl (fun sc m => if containsSub m.toList t then max 0 (sc - 1) else sc) s
        = max 0 (s - (ms.countP (fun m => containsSub m.toList t) : Int)) := by
  induction ms with
  | nil =>
    intro s hs
    simp [max_eq_right hs]
  | cons m ms ih =>
    intro s hs
    simp only [List.foldl_cons, List.countP_cons]
    by_cases hm : containsSub m.toList t = true
    · rw [if_pos hm, ih _ (le_max_left _ _)]
      simp only [hm, if_pos]
      push_cast
      omega
    · rw [if_neg hm, ih s hs, if_neg hm]
      norm_num

theorem discounted_eq (t : List Char) (s : Int) (hs : 0 ≤ s) :
    discounted t s = max 0 (s - markerCount t) := by
  unfold discounted markerCount
  exact discount_fold_eq t SAFE_TONE s hs

theorem markerCount_nonneg (t : List Char) : 0 ≤ markerCount t := by
  unfold markerCount
  positivity

theorem markerCount_le_of_imp {t1 t2 : List Char}
    (H : ∀ m ∈ SAFE_TONE, containsSub m.toList t1 = true → containsSub m.toList t2 = true) :
    markerCount t1 ≤ markerCount t2 := by
  unfold markerCount
  exact_mod_cast List.countP_mono_left H

/-! ## Rounding lemmas -/

theorem roundHalfEven_intCast (n : ℤ) : roundHalfEven (n : ℚ) = n := by
  unfold roundHalfEven
  rw [Int.floor_intCast, if_pos (by norm_num)]

theorem roundHalfEven_cases (q : ℚ) :
    roundHalfEven q = ⌊q⌋ ∨ roundHalfEven q = ⌊q⌋ + 1 := by
  unfold roundHalfEven
  split_ifs <;> simp

theorem roundHalfEven_nonneg {q : ℚ} (h : 0 ≤ q) : 0 ≤ roundHalfEven q := by
  have hf : 0 ≤ ⌊q⌋ := Int.floor_nonneg.mpr h
  rcases roundHalfEven_cases q with he | he <;> omega

theorem roundHalfEven_le_of_le {q : ℚ} {n : ℤ} (h : q ≤ n) : roundHalfEven q ≤ n := by
  have hfn : ⌊q⌋ ≤ n := by
    have := Int.floor_mono h
    rwa [Int.floor_intCast] at this
  by_cases heq : ⌊q⌋ = n
  · have h1 : (n : ℚ) ≤ q := by rw [← heq]; exact Int.floor_le q
    have h2 : q = (n : ℚ) := le_antisymm h h1
    rw [h2, roundHalfEven_intCast]
  · have : ⌊q⌋ + 1 ≤ n := by omega
    rcases roundHalfEven_cases q with he | he <;> omega

theorem roundHalfEven_mono {x y : ℚ} (h : x ≤ y) :
    roundHalfEven x ≤ roundHalfEven y := by
  have hf : ⌊x⌋ ≤ ⌊y⌋ := Int.floor_mono h
  by_cases hlt : ⌊x⌋ < ⌊y⌋
  · rcases roundHalfEven_cases x with h1 | h1 <;>
      rcases roundHalfEven_cases y with h2 | h2 <;> omega
  · have he : ⌊y⌋ = ⌊x⌋ := le_antisymm (not_lt.mp hlt) hf
    have hxy : x - (⌊x⌋ : ℚ) ≤ y - (⌊x⌋ : ℚ) := by linarith
    unfold roundHalfEven
    rw [he]
    by_cases c1 : y - ((⌊x⌋ : ℤ) : ℚ) < 1/2
    · rw [if_pos c1, if_pos (lt_of_le_of_lt hxy c1)]
    · by_cases c2 : 1/2 < y - ((⌊x⌋ : ℤ) : ℚ)
      · rw [if_neg c1, if_pos c2]
        split_ifs <;> omega
      · have hy2 : y - ((⌊x⌋ : ℤ) : ℚ) = 1/2 := le_antisymm (not_lt.mp c2) (not_lt.mp c1)
        by_cases c3 : x - ((⌊x⌋ : ℤ) : ℚ) < 1/2
        · rw [if_pos c3, if_neg c1, if_neg c2]
          split_ifs <;> omega
        · have hx2 : x = y := by
            have : x - ((⌊x⌋ : ℤ) : ℚ) = 1/2 :=
              le_antisymm (by linarith) (not_lt.mp c3)
            linarith
          rw [hx2]

theorem roundHalfEven_eq_down {q : ℚ} {f : ℤ} (h1 : ⌊q⌋ = f) (h2 : q - (f : ℚ) < 1/2) :
    roundHalfEven q = f := by
  unfold roundHalfEven
  rw [h1, if_pos h2]

theorem roundHalfEven_eq_up {q : ℚ} {f : ℤ} (h1 : ⌊q⌋ = f) (h2 : 1/2 < q - (f : ℚ)) :
    roundHalfEven q = f + 1 := by
  unfold roundHalfEven
  rw [h1, if_neg (by linarith), if_pos h2]

theorem round2_mono {x y : ℚ} (h : x ≤ y) : round2 x ≤ round2 y := by
  unfold round2
  have := roundHalfEven_mono (by linarith : x * 100 ≤ y * 100)
  have hc : ((roundHalfEven (x * 100) : ℤ) : ℚ) ≤ ((roundHalfEven (y * 100) : ℤ) : ℚ) :=
    Int.cast_le.mpr this
  exact (div_le_div_right (by norm_num)).mpr hc

theorem round2_nonneg {q : ℚ} (h : 0 ≤ q) : 0 ≤ round2 q := by
  unfold round2
  have := roundHalfEven_nonneg (by linarith : (0:ℚ) ≤ q * 100)
  positivity

theorem round2_le_ten {q : ℚ} (h : q ≤ 10) : round2 q ≤ 10 := by
  unfold round2
  have h1 : roundHalfEven (q * 100) ≤ 1000 :=
    roundHalfEven_le_of_le (by push_cast; linarith)
  rw [div_le_iff (by norm_num : (0:ℚ) < 100)]
  have : ((roundHalfEven (q * 100) : ℤ) : ℚ) ≤ ((1000 : ℤ) : ℚ) := Int.cast_le.mpr h1
  push_cast at this ⊢
  linarith

theorem round2_idem (q : ℚ) : round2 (round2 q) = round2 q := by
  unfold round2
  rw [div_mul_cancel₀ _ (by norm_num : (100:ℚ) ≠ 0), roundHalfEven_intCast]

/-! ## Risk lemmas -/

theorem maxScore_eq : maxScore = 17 := by decide

theorem riskOf_nonneg {s : Int} (hs : 0 ≤ s) : 0 ≤ riskOf s := by
  unfold riskOf
  apply round2_nonneg
  unfold pyMin
  have hq : (0:ℚ) ≤ (s : ℚ) / ((maxScore : ℤ) : ℚ) * 10 := by
    rw [maxScore_eq]
    have : (0:ℚ) ≤ (s : ℚ) := by exact_mod_cast hs
    positivity
  split_ifs <;> [norm_num; exact hq]

theorem riskOf_le_ten (s : Int) : riskOf s ≤ 10 := by
  unfold riskOf
  apply round2_le_ten
  unfold pyMin
  split_ifs with h
  · exact le_refl 10
  · linarith [not_le.mp h]

theorem riskOf_mono {s1 s2 : Int} (h : s1 ≤ s2) : riskOf s1 ≤ riskOf s2 := by
  unfold riskOf
  apply round2_mono
  have h17 : (0:ℚ) < ((maxScore : ℤ) : ℚ) := by rw [maxScore_eq]; norm_num
  have hc : ((s1 : ℤ) : ℚ) ≤ ((s2 : ℤ) : ℚ) := Int.cast_le.mpr h
  have hdiv : (s1 : ℚ) / ((maxScore : ℤ) : ℚ) ≤ (s2 : ℚ) / ((maxScore : ℤ) : ℚ) :=
    (div_le_div_iff_of_pos_right h17).mpr hc
  have hmul : (s1 : ℚ) / ((maxScore : ℤ) : ℚ) * 10
      ≤ (s2 : ℚ) / ((maxScore : ℤ) : ℚ) * 10 := by linarith
  unfold pyMin
  split_ifs <;> linarith

theorem riskOf_zero : riskOf 0 = 0 := by
  unfold riskOf
  rw [maxScore_eq]
  have h0 : ((0:ℤ) : ℚ) / ((17:ℤ) : ℚ) * 10 = 0 := by norm_num
  rw [h0]
  have h1 : pyMin 10 (0:ℚ) = 0 := by unfold pyMin; rw [if_neg (by norm_num)]
  rw [h1]
  unfold round2
  rw [show (0:ℚ) * 100 = ((0:ℤ):ℚ) from by norm_num, roundHalfEven_intCast]
  norm_num

theorem riskOf_one : riskOf 1 = 59/100 := by
  unfold riskOf
  rw [maxScore_eq]
  have h0 : ((1:ℤ) : ℚ) / ((17:ℤ) : ℚ) * 10 = 10/17 := by norm_num
  rw [h0]
  have h1 : pyMin 10 (10/17 : ℚ) = 10/17 := by unfold pyMin; rw [if_neg (by norm_num)]
  rw [h1]
  unfold round2
  rw [show (10/17 : ℚ) * 100 = 1000/17 from by norm_num]
  have h3 : ⌊(1000/17 : ℚ)⌋ = 58 := by
    rw [Int.floor_eq_iff]
    constructor <;> norm_num
  rw [roundHalfEven_eq_up h3 (by norm_num)]
  norm_num

theorem riskOf_two : riskOf 2 = 59/50 := by
  unfold riskOf
  rw [maxScore_eq]
  have h0 : ((2:ℤ) : ℚ) / ((17:ℤ) : ℚ) * 10 = 20/17 := by norm_num
  rw [h0]
  have h1 : pyMin 10 (20/17 : ℚ) = 20/17 := by unfold pyMin; rw [if_neg (by norm_num)]
  rw [h1]
  unfold round2
  rw [show (20/17 : ℚ) * 100 = 2000/17 from by norm_num]
  have h3 : ⌊(2000/17 : ℚ)⌋ = 117 := by
    rw [Int.floor_eq_iff]
    constructor <;> norm_num
  rw [roundHalfEven_eq_up h3 (by norm_num)]
  norm_num

theorem riskOf_seven : riskOf 7 = 103/25 := by
  unfold riskOf
  rw [maxScore_eq]
  have h0 : ((7:ℤ) : ℚ) / ((17:ℤ) : ℚ) * 10 = 70/17 := by norm_num
  rw [h0]
  have h1 : pyMin 10 (70/17 : ℚ) = 70/17 := by unfold pyMin; rw [if_neg (by norm_num)]
  rw [h1]
  unfold round2
  rw [show (70/17 : ℚ) * 100 = 7000/17 from by norm_num]
  have h3 : ⌊(7000/17 : ℚ)⌋ = 411 := by
    rw [Int.floor_eq_iff]
    constructor <;> norm_num
  rw [roundHalfEven_eq_up h3 (by norm_num)]
  norm_num

/-! ## Label and feedback helpers -/

theorem labelOf_spec (q : ℚ) :
    (labelOf q = "High Risk" ↔ 7 ≤ q)
    ∧ (labelOf q = "Medium Risk" ↔ 4 ≤ q ∧ q < 7)
    ∧ (labelOf q = "Low Risk" ↔ q < 4) := by
  unfold labelOf
  by_cases h7 : (7:ℚ) ≤ q
  · rw [if_pos h7]
    exact ⟨⟨fun _ => h7, fun _ => rfl⟩,
      ⟨fun he => absurd he (by decide), fun hc => absurd h7 (by linarith [hc.2])⟩,
      ⟨fun he => absurd he (by decide), fun hlt => absurd h7 (by linarith)⟩⟩
  · by_cases h4 : (4:ℚ) ≤ q
    · rw [if_neg h7, if_pos h4]
      exact ⟨⟨fun he => absurd he (by decide), fun hge => absurd hge h7⟩,
        ⟨fun _ => ⟨h4, by linarith [not_le.mp h7]⟩, fun _ => rfl⟩,
        ⟨fun he => absurd he (by decide), fun hlt => absurd h4 (by linarith)⟩⟩
    · rw [if_neg h7, if_neg h4]
      exact ⟨⟨fun he => absurd he (by decide), fun hge => absurd hge h7⟩,
        ⟨fun he => absurd he (by decide), fun hc => absurd hc.1 h4⟩,
        ⟨fun _ => not_le.mp h4, fun _ => rfl⟩⟩

theorem analyze_label_def (text : String) :
    (analyze_message text).label = labelOf ((analyze_message text).risk_score_0_10) := rfl

theorem analyze_risk_def (text : String) :
    (analyze_message text).risk_score_0_10
      = riskOf (discounted (paddedOf text) (rawScore (paddedOf text))) := rfl

theorem feedback_generic (x : String × ℚ) (xs : List (String × ℚ))
    (h : topLabel x xs ∉ feedbackBank.map Prod.fst) :
    feedback_for_labels (x :: xs) = "Good effort—let's keep improving!" := by
  have hn : feedbackBank.find? (fun p => p.1 == topLabel x xs) = none := by
    rw [List.find?_eq_none]
    intro p hp hbeq
    exact h (List.mem_map.mpr ⟨p, hp, by simpa using hbeq⟩)
  show (Option.map Prod.snd (feedbackBank.find? (fun p => p.1 == topLabel x xs))).getD
      "Good effort—let's keep improving!" = "Good effort—let's keep improving!"
  rw [hn]
  rfl

/-! ## Score fold as a sum of per-keyword contributions -/

theorem foldKw_eq_sum (w : Int) (t : List Char) (kws : List String) :
    ∀ s : Int, kws.foldl (fun s' kw => if kwHit kw t then s' + w else s') s
      = s + (kws.map (fun kw => kwContribution w kw t)).sum := by
  induction kws with
  | nil => intro s; simp
  | cons k ks ih =>
    intro s
    simp only [List.foldl_cons, List.map_cons, List.sum_cons]
    rw [ih]
    unfold kwContribution
    by_cases hk : kwHit k t = true
    · rw [if_pos hk, if_pos hk]; ring
    · rw [if_neg hk, if_neg hk]; ring

theorem rawScore_eq_sum (t : List Char) :
    rawScore t = (RULES.map
      (fun r => (r.keywords.map (fun kw => kwContribution r.weight kw t)).sum)).sum := by
  unfold rawScore
  have H : ∀ rules : List Rule, ∀ s : Int,
      rules.foldl
        (fun s' r => r.keywords.foldl (fun s2' kw => if kwHit kw t then s2' + r.weight else s2') s') s
      = s + (rules.map
          (fun r => (r.keywords.map (fun kw => kwContribution r.weight kw t)).sum)).sum := by
    intro rules
    induction rules with
    | nil => intro s; simp
    | cons r rs ih =>
      intro s
      simp only [List.foldl_cons, List.map_cons, List.sum_cons]
      rw [ih, foldKw_eq_sum]
      ring
  rw [H RULES 0, zero_add]

theorem rules_weights_pos : ∀ r ∈ RULES, 0 < r.weight := by decide

/-! ## Claim theorems -/

/-- C1: for every input string, `analyze_message` returns a risk score
`risk_score_0_10` in the closed interval [0, 10] that equals its own value
rounded to 2 decimal places. -/
theorem claim_c1_risk_score_bounds (text : String) :
    0 ≤ (analyze_message text).risk_score_0_10
    ∧ (analyze_message text).risk_score_0_10 ≤ 10
    ∧ round2 ((analyze_message text).risk_score_0_10)
        = (analyze_message text).risk_score_0_10 := by
  have hraw := rawScore_nonneg (paddedOf text)
  have hsd : 0 ≤ discounted (paddedOf text) (rawScore (paddedOf text)) := by
    rw [discounted_eq _ _ hraw]
    exact le_max_left _ _
  refine ⟨?_, ?_, ?_⟩
  · rw [analyze_risk_def]
    exact riskOf_nonneg hsd
  · rw [analyze_risk_def]
    exact riskOf_le_ten _
  · rw [analyze_risk_def]
    unfold riskOf
    exact round2_idem _

/-- C2: `analyze_message` on the empty string returns risk score 0, label
"Low Risk", and matches equal to the single-element sequence
["No risky patterns found"]. -/
theorem claim_c2_empty_string :
    (analyze_message "").risk_score_0_10 = 0
    ∧ (analyze_message "").label = "Low Risk"
    ∧ (analyze_message "").matches' = ["No risky patterns found"] := by
  have hs : discounted (paddedOf "") (rawScore (paddedOf "")) = 0 := by decide
  have hr : (analyze_message "").risk_score_0_10 = 0 := by
    rw [analyze_risk_def, hs, riskOf_zero]
  refine ⟨hr, ?_, by decide⟩
  rw [analyze_label_def, hr]
  exact (labelOf_spec 0).2.2.mpr (by norm_num)

/-- C3: the returned label is a deterministic function of the returned risk
score alone, with bands `risk >= 7` High Risk, `4 <= risk < 7` Medium Risk,
`risk < 4` Low Risk, thresholds inclusive at the lower bound of each band. -/
theorem claim_c3_label_thresholds (text : String) :
    ((analyze_message text).label = "High Risk"
        ↔ 7 ≤ (analyze_message text).risk_score_0_10)
    ∧ ((analyze_message text).label = "Medium Risk"
        ↔ 4 ≤ (analyze_message text).risk_score_0_10
          ∧ (analyze_message text).risk_score_0_10 < 7)
    ∧ ((analyze_message text).label = "Low Risk"
        ↔ (analyze_message text).risk_score_0_10 < 4)
    ∧ (∀ text2 : String,
        (analyze_message text).risk_score_0_10 = (analyze_message text2).risk_score_0_10 →
        (analyze_message text).label = (analyze_message text2).label) := by
  refine ⟨?_, ?_, ?_, ?_⟩
  · rw [analyze_label_def]
    exact (labelOf_spec _).1
  · rw [analyze_label_def]
    exact (labelOf_spec _).2.1
  · rw [analyze_label_def]
    exact (labelOf_spec _).2.2
  · intro text2 he
    rw [analyze_label_def, analyze_label_def, he]

/-- C3 witness: at the empty string the risk score is below 4 and the Low Risk
band of the threshold theorem applies. -/
theorem claim_c3_witness :
    (analyze_message "").label = "Low Risk"
    ∧ (analyze_message "").label = (analyze_message "").label := by
  have hs : discounted (paddedOf "") (rawScore (paddedOf "")) = 0 := by decide
  have hr : (analyze_message "").risk_score_0_10 = 0 := by
    rw [analyze_risk_def, hs, riskOf_zero]
  exact ⟨(claim_c3_label_thresholds "").2.2.1.mpr (by rw [hr]; norm_num),
    (claim_c3_label_thresholds "").2.2.2 "" rfl⟩

/-- C6: on "You're so dumb, nobody likes you!" the scorer records exactly the
hits for keyword "dumb" (insult, weight 3) and phrase "nobody likes you"
(harassment, weight 4), raw score 7 against the rule-weight sum 17, risk score
round(min(10, 7/17*10), 2) = 4.12, and label "Medium Risk". -/
theorem claim_c6_concrete_scenario :
    hitsOf (paddedOf "You're so dumb, nobody likes you!")
      = [("insult", "dumb"), ("harassment", "nobody likes you")]
    ∧ rawScore (paddedOf "You're so dumb, nobody likes you!") = 7
    ∧ maxScore = 17
    ∧ (analyze_message "You're so dumb, nobody likes you!").risk_score_0_10
        = round2 (pyMin 10 ((7:ℚ)/17*10))
    ∧ (analyze_message "You're so dumb, nobody likes you!").risk_score_0_10 = 412/100
    ∧ (analyze_message "You're so dumb, nobody likes you!").label = "Medium Risk" := by
  have hs : discounted (paddedOf "You're so dumb, nobody likes you!")
      (rawScore (paddedOf "You're so dumb, nobody likes you!")) = 7 := by decide
  have hr : (analyze_message "You're so dumb, nobody likes you!").risk_score_0_10
      = 103/25 := by
    rw [analyze_risk_def, hs, riskOf_seven]
  refine ⟨by decide, by decide, maxScore_eq, ?_, ?_, ?_⟩
  · rw [hr]
    have h417 : riskOf 7 = round2 (pyMin 10 ((7:ℚ)/17*10)) := by
      unfold riskOf
      rw [maxScore_eq]
      norm_num
    rw [← h417, riskOf_seven]
  · rw [hr]
    norm_num
  · rw [analyze_label_def, hr]
    exact (labelOf_spec _).2.1.mpr ⟨by norm_num, by norm_num⟩

/-- C9: keyword matching via the punctuation-stripped variant is plain
substring matching without word boundaries: "Hello" records the hit for
keyword "hell" (profanity, weight 2) from the stripped check alone, giving
risk score round(2/17*10, 2) = 1.18 and a non-empty matches entry. -/
theorem claim_c9_substring_no_boundaries :
    condStripped "hell" (paddedOf "Hello") = true
    ∧ condPadded "hell" (paddedOf "Hello") = false
    ∧ hitsOf (paddedOf "Hello") = [("profanity", "hell")]
    ∧ (analyze_message "Hello").risk_score_0_10 = round2 (pyMin 10 ((2:ℚ)/17*10))
    ∧ (analyze_message "Hello").risk_score_0_10 = 118/100
    ∧ (analyze_message "Hello").risk_score_0_10 ≠ 0
    ∧ (analyze_message "Hello").matches' = ["Contains profanity (matched: “hell”)"] := by
  have hs : discounted (paddedOf "Hello") (rawScore (paddedOf "Hello")) = 2 := by decide
  have hr : (analyze_message "Hello").risk_score_0_10 = 59/50 := by
    rw [analyze_risk_def, hs, riskOf_two]
  refine ⟨by decide, by decide, by decide, ?_, ?_, ?_, by decide⟩
  · rw [hr]
    have h217 : riskOf 2 = round2 (pyMin 10 ((2:ℚ)/17*10)) := by
      unfold riskOf
      rw [maxScore_eq]
      norm_num
    rw [← h217, riskOf_two]
  · rw [hr]
    norm_num
  · rw [hr]
    norm_num

/-- C7 counterexample: the claim asserts that "please" is not itself a listed
safe-tone marker, but "please" is an element of `SAFE_TONE`. -/
theorem claim_c7_counterexample : "please" ∈ SAFE_TONE := by decide

/-- C7 amended: on "Hey, can we please keep the chat on-topic?" there are zero
rule hits, risk score 0, label "Low Risk" and matches ["No risky patterns
found"]; both "can we" and "please" are listed safe-tone markers. -/
theorem claim_c7_amended :
    hitsOf (paddedOf "Hey, can we please keep the chat on-topic?") = []
    ∧ (analyze_message "Hey, can we please keep the chat on-topic?").risk_score_0_10 = 0
    ∧ (analyze_message "Hey, can we please keep the chat on-topic?").label = "Low Risk"
    ∧ (analyze_message "Hey, can we please keep the chat on-topic?").matches'
        = ["No risky patterns found"]
    ∧ "can we" ∈ SAFE_TONE
    ∧ "please" ∈ SAFE_TONE := by
  have hs : discounted (paddedOf "Hey, can we please keep the chat on-topic?")
      (rawScore (paddedOf "Hey, can we please keep the chat on-topic?")) = 0 := by decide
  have hr : (analyze_message "Hey, can we please keep the chat on-topic?").risk_score_0_10
      = 0 := by
    rw [analyze_risk_def, hs, riskOf_zero]
  refine ⟨by decide, hr, ?_, by decide, by decide, by decide⟩
  rw [analyze_label_def, hr]
  exact (labelOf_spec 0).2.2.mpr (by norm_num)

/-- C5 counterexample: on input "dumb" both the space-padded check and the
stripped-variant check are true for keyword "dumb" (insult, weight 3), yet the
running score counts the weight once: it is 3, not 6. -/
theorem claim_c5_counterexample :
    condPadded "dumb" (paddedOf "dumb") = true
    ∧ condStripped "dumb" (paddedOf "dumb") = true
    ∧ rawScore (paddedOf "dumb") = 3
    ∧ ¬ rawScore (paddedOf "dumb") = 6 := by decide

/-- C5 amended: the running score is the sum of one contribution per keyword,
and a keyword for which both the space-padded check and the stripped-variant
check evaluate true contributes its rule's weight exactly once, never twice. -/
theorem claim_c5_amended (t : List Char) :
    rawScore t = (RULES.map
        (fun r => (r.keywords.map (fun kw => kwContribution r.weight kw t)).sum)).sum
    ∧ ∀ r ∈ RULES, ∀ kw ∈ r.keywords,
        condPadded kw t = true → condStripped kw t = true →
        kwContribution r.weight kw t = r.weight
          ∧ kwContribution r.weight kw t < 2 * r.weight := by
  refine ⟨rawScore_eq_sum t, ?_⟩
  intro r hr kw _ hA _
  have hw : 0 < r.weight := rules_weights_pos r hr
  have hk : kwHit kw t = true := by
    unfold kwHit
    rw [hA]
    rfl
  unfold kwContribution
  rw [if_pos hk]
  exact ⟨rfl, by linarith⟩

/-- C5 witness: the amended theorem applied to input "dumb", the insult rule
and keyword "dumb", whose two checks are both true there. -/
theorem claim_c5_witness :
    kwContribution (3 : Int) "dumb" (paddedOf "dumb") = 3
    ∧ kwContribution (3 : Int) "dumb" (paddedOf "dumb") < 2 * 3 :=
  (claim_c5_amended (paddedOf "dumb")).2
    ⟨"insult", ["idiot", "stupid", "dumb", "loser"], 3, "Potential insult"⟩
    (by decide) "dumb" (by decide) (by decide) (by decide)

/-- C10: `feedback_for_labels` is total: the empty mapping yields the
digital-choices message; every non-empty mapping whose first highest-scoring
key is not one of the four bank keys yields the generic message; in particular
the app display labels "Safe", "Risky" and "Scam" always receive the generic
message. -/
theorem claim_c10_feedback_totality :
    feedback_for_labels [] = "Good effort—let's keep improving our digital choices."
    ∧ feedbackBank.map Prod.fst
        = ["Safe behavior", "Risky behavior", "Respectful", "Disrespectful"]
    ∧ (∀ x : String × ℚ, ∀ xs : List (String × ℚ),
        topLabel x xs ∉ feedbackBank.map Prod.fst →
        feedback_for_labels (x :: xs) = "Good effort—let's keep improving!")
    ∧ (∀ x : String × ℚ, ∀ xs : List (String × ℚ),
        topLabel x xs ∈ (["Safe", "Risky", "Scam"] : List String) →
        feedback_for_labels (x :: xs) = "Good effort—let's keep improving!")
    ∧ (∀ lb ∈ (["Safe", "Risky", "Scam"] : List String), lb ∈ DISPLAY_LABELS) := by
  refine ⟨rfl, by decide, fun x xs h => feedback_generic x xs h, ?_, by decide⟩
  intro x xs h
  have h3 : topLabel x xs = "Safe" ∨ topLabel x xs = "Risky" ∨ topLabel x xs = "Scam" := by
    simpa using h
  rcases h3 with he | he | he <;>
    exact feedback_generic x xs (by rw [he]; decide)

/-- C10 witness: a singleton mapping whose top key is the display label "Scam"
receives the generic message. -/
theorem claim_c10_witness :
    feedback_for_labels [("Scam", (1:ℚ))] = "Good effort—let's keep improving!" :=
  claim_c10_feedback_totality.2.2.2.1 ("Scam", (1:ℚ)) [] (by decide)

/-! ## C4: monotonicity under appending an already-hit keyword -/

theorem rules_keywords_props :
    ∀ r ∈ RULES, ∀ k ∈ r.keywords,
      lowerCL k.toList = k.toList
      ∧ k.toList.getLast?.all (fun c => !isWs c) = true
      ∧ k.toList ≠ []
      ∧ k.toList.map replPunct = k.toList := by decide

theorem rules_no_hit_blank :
    ∀ r ∈ RULES, ∀ k ∈ r.keywords, kwHit k [' ', ' '] = false := by decide

/-- C4 counterexample: "you can't sit" is a rule keyword already hit in
"you can't sit here, thank", yet appending " you can't sit" strictly lowers
the risk score (the appended text completes the safe marker "thank you"). -/
theorem claim_c4_counterexample :
    "you can't sit" ∈ (RULES.map Rule.keywords).join
    ∧ kwHit "you can't sit" (paddedOf "you can't sit here, thank") = true
    ∧ (analyze_message ("you can't sit here, thank" ++ " " ++ "you can't sit")).risk_score_0_10
        < (analyze_message "you can't sit here, thank").risk_score_0_10 := by
  have h1 : discounted (paddedOf "you can't sit here, thank")
      (rawScore (paddedOf "you can't sit here, thank")) = 2 := by decide
  have h2 : discounted (paddedOf ("you can't sit here, thank" ++ " " ++ "you can't sit"))
      (rawScore (paddedOf ("you can't sit here, thank" ++ " " ++ "you can't sit"))) = 1 := by
    decide
  refine ⟨by decide, by decide, ?_⟩
  rw [analyze_risk_def, analyze_risk_def, h1, h2, riskOf_one, riskOf_two]
  norm_num

/-- C4 amended: appending " " and an already-hit rule keyword does not
decrease the risk score, provided the appended occurrence introduces no
safe-tone marker that was not already present (without that proviso the score
can decrease, as a marker can form across the boundary). -/
theorem claim_c4_amended (text kw : String) (r : Rule) (hr : r ∈ RULES)
    (hkw : kw ∈ r.keywords)
    (hhit : kwHit kw (paddedOf text) = true)
    (hmk : ∀ m ∈ SAFE_TONE,
        containsSub m.toList (paddedOf (text ++ " " ++ kw)) = true →
        containsSub m.toList (paddedOf text) = true) :
    (analyze_message text).risk_score_0_10
      ≤ (analyze_message (text ++ " " ++ kw)).risk_score_0_10 := by
  have props := rules_keywords_props
  have pkw := props r hr kw hkw
  -- the stripped text is nonempty, else no keyword could be hit
  have hls : lstripCL (lowerCL text.toList) ≠ [] := by
    intro h0
    have hstrip : stripCL (lowerCL text.toList) = [] := by
      rw [stripCL, h0]
      rfl
    have hpad : paddedOf text = [' ', ' '] := by
      rw [paddedOf, hstrip]
      rfl
    rw [hpad] at hhit
    rw [rules_no_hit_blank r hr kw hkw] at hhit
    exact Bool.false_ne_true hhit
  -- every hit persists to the appended text
  have H : ∀ r' ∈ RULES, ∀ k ∈ r'.keywords,
      kwHit k (paddedOf text) = true → kwHit k (paddedOf (text ++ " " ++ kw)) = true := by
    intro r' hr' k hk hold
    have pk := props r' hr' k hk
    exact kwHit_persist hls pkw.1 pkw.2.1 pkw.2.2.1 pk.2.2.2 pk.2.1 pk.2.2.1 hold
  have hrawle : rawScore (paddedOf text) ≤ rawScore (paddedOf (text ++ " " ++ kw)) :=
    rawScore_le_of_hits H
  have hraw1 := rawScore_nonneg (paddedOf text)
  have hraw2 := rawScore_nonneg (paddedOf (text ++ " " ++ kw))
  have hmc : markerCount (paddedOf (text ++ " " ++ kw)) ≤ markerCount (paddedOf text) :=
    markerCount_le_of_imp hmk
  rw [analyze_risk_def, analyze_risk_def, discounted_eq _ _ hraw1, discounted_eq _ _ hraw2]
  apply riskOf_mono
  omega

/-- C4 witness: the amended theorem applied to text "dumb" and keyword "dumb",
which is hit there and whose appended copy introduces no safe-tone marker. -/
theorem claim_c4_witness :
    (analyze_message "dumb").risk_score_0_10
      ≤ (analyze_message ("dumb" ++ " " ++ "dumb")).risk_score_0_10 :=
  claim_c4_amended "dumb" "dumb"
    ⟨"insult", ["idiot", "stupid", "dumb", "loser"], 3, "Potential insult"⟩
    (by decide) (by decide) (by decide) (by decide)

/-! ## C8: fallback policy of the hosted-classification path -/

/-- C8 counterexample: an authentication (401) failure on the first zero-shot
backend is caught and retried, not surfaced to the caller: the call succeeds
on the second backend. -/
theorem claim_c8_counterexample :
    hf_post backend401 "facebook/bart-large-mnli" = .error .unauthorized401
    ∧ zero_shot_claim_check backend401
        = .ok ⟨"joeddav/bart-large-mnli-yahoo-answers", ["risky"], []⟩ := by
  exact ⟨rfl, rfl⟩

/-- C8 amended: in the fallback loops every categorized `_hf_post` error —
authentication (401), permission (403), not-found (404) and transient
unavailability (503) — is caught and retried against the next backend, as is a
malformed response in the zero-shot path, while the toxicity path turns a
malformed response into a success with empty scores and toxic score 0; when
every backend fails with a caught error, the aggregate failure carries the
last error's detail. -/
theorem claim_c8_amended :
    (∀ (backend : String → HfResponse) (m : String) (rest : List String)
        (last : Option HfErrKind) (e : HfErrKind),
        hf_post backend m = .error e → caughtByFallback e = true →
        zscGo backend (m :: rest) last = zscGo backend rest (some e))
    ∧ (∀ (backend : String → HfResponse) (m : String) (rest : List String)
        (last : Option HfErrKind) (body : HfBody),
        hf_post backend m = .ok body → zscParse body = none →
        zscGo backend (m :: rest) last = zscGo backend rest (some (.unexpectedShape m)))
    ∧ (caughtByFallback .unauthorized401 = true
        ∧ caughtByFallback .forbidden403 = true
        ∧ (∀ m, caughtByFallback (.modelNotFound m) = true)
        ∧ (∀ m, caughtByFallback (.warmingUp503 m) = true)
        ∧ (∀ m, caughtByFallback (.unexpectedShape m) = true))
    ∧ (∀ (backend : String → HfResponse) (e1 e2 e3 : HfErrKind),
        hf_post backend "facebook/bart-large-mnli" = .error e1 →
        caughtByFallback e1 = true →
        hf_post backend "joeddav/bart-large-mnli-yahoo-answers" = .error e2 →
        caughtByFallback e2 = true →
        hf_post backend "typeform/distilbert-base-uncased-mnli" = .error e3 →
        caughtByFallback e3 = true →
        zero_shot_claim_check backend = .error (.aggregateZsc (some e3)))
    ∧ (∀ (backend : String → HfResponse) (m : String) (rest : List String)
        (last : Option HfErrKind) (e : HfErrKind),
        hf_post backend m = .error e → caughtByFallback e = true →
        toxGo backend (m :: rest) last = toxGo backend rest (some e))
    ∧ (∀ (backend : String → HfResponse) (m : String) (rest : List String)
        (last : Option HfErrKind),
        hf_post backend m = .ok .otherBody →
        toxGo backend (m :: rest) last = .ok ⟨m, [], 0⟩)
    ∧ (∀ (backend : String → HfResponse) (e1 e2 : HfErrKind),
        hf_post backend "unitary/toxic-bert" = .error e1 →
        caughtByFallback e1 = true →
        hf_post backend "s-nlp/roberta_toxicity_classifier" = .error e2 →
        caughtByFallback e2 = true →
        classify_toxicity backend = .error (.aggregateTox (some e2))) := by
  have hz1 : ∀ (backend : String → HfResponse) (m : String) (rest : List String)
      (last : Option HfErrKind) (e : HfErrKind),
      hf_post backend m = .error e → caughtByFallback e = true →
      zscGo backend (m :: rest) last = zscGo backend rest (some e) := by
    intro backend m rest last e he hc
    conv_lhs => rw [zscGo]
    rw [he]
    simp [hc]
  have ht1 : ∀ (backend : String → HfResponse) (m : String) (rest : List String)
      (last : Option HfErrKind) (e : HfErrKind),
      hf_post backend m = .error e → caughtByFallback e = true →
      toxGo backend (m :: rest) last = toxGo backend rest (some e) := by
    intro backend m rest last e he hc
    conv_lhs => rw [toxGo]
    rw [he]
    simp [hc]
  refine ⟨hz1, ?_, ⟨rfl, rfl, fun _ => rfl, fun _ => rfl, fun _ => rfl⟩, ?_, ht1, ?_, ?_⟩
  · intro backend m rest last body he hp
    conv_lhs => rw [zscGo]
    rw [he]
    simp [hp]
  · intro backend e1 e2 e3 h1 c1 h2 c2 h3 c3
    unfold zero_shot_claim_check ZSC_MODELS
    rw [hz1 backend _ _ _ e1 h1 c1, hz1 backend _ _ _ e2 h2 c2,
      hz1 backend _ _ _ e3 h3 c3]
    rfl
  · intro backend m rest last he
    conv_lhs => rw [toxGo]
    rw [he]
    rfl
  · intro backend e1 e2 h1 c1 h2 c2
    unfold classify_toxicity TOX_MODELS
    rw [ht1 backend _ _ _ e1 h1 c1, ht1 backend _ _ _ e2 h2 c2]
    rfl

/-- C8 witness: on a backend whose every model answers 503, the retries
exhaust the list and the aggregate error carries the last model's 503 detail. -/
theorem claim_c8_witness :
    zero_shot_claim_check backendAll503
      = .error (.aggregateZsc (some (.warmingUp503 "typeform/distilbert-base-uncased-mnli"))) :=
  claim_c8_amended.2.2.2.1 backendAll503
    (.warmingUp503 "facebook/bart-large-mnli")
    (.warmingUp503 "joeddav/bart-large-mnli-yahoo-answers")
    (.warmingUp503 "typeform/distilbert-base-uncased-mnli")
    rfl rfl rfl rfl rfl rfl

end DigCit
